import Mathlib

/-!
# Verification of the NeuroFeel cross-dataset adaptation core

Shallow embedding of the cross-dataset domain-adaptation and training
pipeline (`src/cross_dataset/`): class balancing (`models/balancing.py`),
the domain aligners (`domain_adaptation/coral.py`, `subspace.py`,
`ensemble.py`), the trainer's adaptation dispatch and ensemble fitting
(`models/training.py`), and the threshold-optimizing evaluator
(`models/evaluation.py`).

Conventions of the embedding:

* Feature values are exact numbers: rationals (`ℚ`) for the combinatorial
  components (balancing, sample weights, threshold search), reals (`ℝ`)
  for the linear-algebra components (mean/covariance alignment).
* Machine floats are modelled by exact arithmetic; a `/ 0` in `ℚ`/`ℝ` is 0.
* `numpy`/`scipy`/`sklearn`/`imblearn` calls are modelled by their
  documented mathematical semantics.  A library call that can raise is
  modelled as an `Option`-valued body; the caller's `try`/`except` fallback
  becomes `Option.getD`.  PCA bases and SMOTE's randomly generated
  synthetic rows are external, data-dependent values; they enter as
  explicit oracle parameters.
-/

namespace NeuroFeel

/-! ## Configuration constants (`src/cross_dataset/config.py`) -/

/-- Constant `CLASS_BALANCE_THRESHOLD = 0.7`. -/
def CLASS_BALANCE_THRESHOLD : ℚ := 7/10

/-- Constant `CLASS_BALANCE_METHOD = 'SMOTE'`. -/
def CLASS_BALANCE_METHOD : String := "SMOTE"

/-- Constant `SAMPLING_STRATEGY = 0.8`. -/
def SAMPLING_STRATEGY : ℚ := 4/5

/-- Constant `SUBSPACE_MIN_COMPONENTS = 2`. -/
def SUBSPACE_MIN_COMPONENTS : ℕ := 2

/-- Constant `DECISION_THRESHOLDS = [0.2, 0.25, ..., 0.8]` (explicit literal list). -/
def DECISION_THRESHOLDS : List ℚ :=
  [2/10, 25/100, 3/10, 35/100, 4/10, 45/100, 5/10, 55/100, 6/10, 65/100, 7/10, 75/100, 8/10]

/-! ## Class balancing (`src/cross_dataset/models/balancing.py`) -/

/-- Model of `np.bincount` on a vector of natural-number labels: position `v` holds
the number of occurrences of `v`, up to the largest label present.
`np.bincount([])` is the empty array. -/
def bincount (y : List ℕ) : List ℕ :=
  match y with
  | [] => []
  | _ => (List.range (y.foldl max 0 + 1)).map fun v => y.countP (· = v)

/-- Function `check_class_imbalance`: returns `(needs_balancing, minority_ratio)`.
With fewer than two bincount entries it reports `(False, 1.0)`; otherwise
the ratio is `min(counts)/max(counts)` and balancing is needed when the
ratio is below `CLASS_BALANCE_THRESHOLD`. -/
def check_class_imbalance (y : List ℕ) : Bool × ℚ :=
  let class_counts := bincount y
  if class_counts.length < 2 then (false, 1)
  else
    let minority_ratio : ℚ :=
      ((class_counts.min?.getD 0 : ℕ) : ℚ) / ((class_counts.max?.getD 0 : ℕ) : ℚ)
    (minority_ratio < CLASS_BALANCE_THRESHOLD, minority_ratio)

/-- The label imblearn's float `sampling_strategy` treats as the minority
class of a binary problem: the class with the smaller count. -/
def minorityLabel (y : List ℕ) : ℕ :=
  if (bincount y).getD 1 0 < (bincount y).getD 0 0 then 1 else 0

/-- Model of `SMOTE(random_state=42, sampling_strategy=SAMPLING_STRATEGY).fit_resample(X, y)`,
modelled from imblearn's documented semantics.  A float sampling strategy
requires a binary target; SMOTE's `k_neighbors=5` requires more than 5
minority samples; the target minority count is
`int(SAMPLING_STRATEGY * n_majority)` and must not be below the current
count.  On success the synthetic minority rows (produced by the library's
random interpolation, here the oracle `gen`) are appended after the
original rows.  `none` models the library raising, caught by the caller. -/
def smote_fit_resample (gen : ℕ → List ℚ) (X : List (List ℚ)) (y : List ℕ) :
    Option (List (List ℚ) × List ℕ) :=
  let counts := bincount y
  if counts.length ≠ 2 then none
  else
    let c0 := counts.getD 0 0
    let c1 := counts.getD 1 0
    let nMin := min c0 c1
    let nMaj := max c0 c1
    if nMin ≤ 5 then none
    else if Nat.floor (SAMPLING_STRATEGY * (nMaj : ℚ)) < nMin then none
    else
      let nNew := Nat.floor (SAMPLING_STRATEGY * (nMaj : ℚ)) - nMin
      some (X ++ (List.range nNew).map gen, y ++ List.replicate nNew (minorityLabel y))

/-- Function `apply_class_balancing(X, y, method)`.  The external resamplers other
than SMOTE, and the whole cross-validated `'auto'` branch, enter as oracle
parameters (`adasynR`, `smoteennR`, `autoB`); SMOTE itself (the configured
default and also the fallback for an unknown method name) is
`smote_fit_resample gen`.  A failing resampler (`none`) falls back to the
original `(X, y)`. -/
def apply_class_balancing
    (gen : ℕ → List ℚ)
    (adasynR smoteennR : List (List ℚ) → List ℕ → Option (List (List ℚ) × List ℕ))
    (autoB : List (List ℚ) → List ℕ → List (List ℚ) × List ℕ)
    (X : List (List ℚ)) (y : List ℕ) (method : String) :
    List (List ℚ) × List ℕ :=
  let checked := check_class_imbalance y
  if ¬ checked.1 then (X, y)
  else if method = "auto" then autoB X y
  else
    let r : Option (List (List ℚ) × List ℕ) :=
      if method = "SMOTE" then smote_fit_resample gen X y
      else if method = "ADASYN" then adasynR X y
      else if method = "SMOTEENN" then smoteennR X y
      else smote_fit_resample gen X y
    r.getD (X, y)

/-- Function `create_sample_weights(y)`: weight of a sample with label `l` is
`len(y) / (len(class_counts) * class_counts[l])`. -/
def create_sample_weights (y : List ℕ) : List ℚ :=
  let class_counts := bincount y
  let weight_dict : ℕ → ℚ := fun i =>
    (y.length : ℚ) / ((class_counts.length : ℚ) * ((class_counts.getD i 0 : ℕ) : ℚ))
  y.map fun label => weight_dict label

/-! ## The classifier-ensemble fit sequence (`models/training.py`) -/

/-- One `fit` call received by a sub-classifier. -/
structure FitCall (α : Type) where
  features : α
  labels : List ℕ
  sample_weight : Option (List ℚ)

/-- The fit calls each member of the voting ensemble receives during one
training direction. -/
structure EnsembleFitLog (α : Type) where
  rf : List (FitCall α)
  gb : List (FitCall α)
  svm : List (FitCall α)

/-- The fit sequence of `train_cross_dataset_model` / `train_reverse_model`:
`ensemble.fit(X_train, y_bal)` fits each member once without weights, then
`ensemble.named_estimators_['gb'].fit(X_train, y_bal, sample_weight=create_sample_weights(y_bal))`
refits only the gradient-boosting member. -/
def trainEnsembleFits {α : Type} (X_train : α) (y_balanced : List ℕ) :
    EnsembleFitLog α :=
  { rf := [⟨X_train, y_balanced, none⟩]
    gb := [⟨X_train, y_balanced, none⟩,
           ⟨X_train, y_balanced, some (create_sample_weights y_balanced)⟩]
    svm := [⟨X_train, y_balanced, none⟩] }

/-! ## Threshold search (`src/cross_dataset/models/evaluation.py`) -/

/-- Predictions `(y_prob >= threshold).astype(int)`. -/
def predsAt (y_prob : List ℚ) (threshold : ℚ) : List ℕ :=
  y_prob.map fun p => if threshold ≤ p then 1 else 0

/-- Model of `sklearn.metrics.accuracy_score`. -/
def accuracy_score (y_true y_pred : List ℕ) : ℚ :=
  (((y_true.zip y_pred).countP fun ab => ab.1 = ab.2 : ℕ) : ℚ) / (y_true.length : ℚ)

/-- True positives of label `l`. -/
def truePos (y_true y_pred : List ℕ) (l : ℕ) : ℕ :=
  (y_true.zip y_pred).countP fun ab => ab.1 = l ∧ ab.2 = l

/-- Per-label recall (0 when the label has no true samples,
matching sklearn's `zero_division=0` default). -/
def recallOf (y_true y_pred : List ℕ) (l : ℕ) : ℚ :=
  ((truePos y_true y_pred l : ℕ) : ℚ) / ((y_true.countP (· = l) : ℕ) : ℚ)

/-- Per-label precision (0 when nothing is predicted as `l`). -/
def precisionOf (y_true y_pred : List ℕ) (l : ℕ) : ℚ :=
  ((truePos y_true y_pred l : ℕ) : ℚ) / ((y_pred.countP (· = l) : ℕ) : ℚ)

/-- Per-label F1, `2pr/(p+r)`, 0 when `p + r = 0`. -/
def f1Of (y_true y_pred : List ℕ) (l : ℕ) : ℚ :=
  2 * precisionOf y_true y_pred l * recallOf y_true y_pred l /
    (precisionOf y_true y_pred l + recallOf y_true y_pred l)

/-- Model of `f1_score(..., average='macro')`: mean per-label F1 over the labels
present in `y_true` or `y_pred`. -/
def f1Macro (y_true y_pred : List ℕ) : ℚ :=
  let labels := (y_true ++ y_pred).dedup
  (labels.map (f1Of y_true y_pred)).sum / (labels.length : ℚ)

/-- Model of `balanced_accuracy_score`: mean recall over the labels present in
`y_true`. -/
def balanced_accuracy_score (y_true y_pred : List ℕ) : ℚ :=
  let labels := y_true.dedup
  (labels.map (recallOf y_true y_pred)).sum / (labels.length : ℚ)

/-- The score `find_optimal_threshold` computes at one threshold for the
chosen metric (`'f1'` macro-F1, `'balanced_acc'`, anything else accuracy). -/
def thresholdScore (metric : String) (y_true : List ℕ) (y_prob : List ℚ)
    (threshold : ℚ) : ℚ :=
  let y_pred := predsAt y_prob threshold
  if metric = "f1" then f1Macro y_true y_pred
  else if metric = "balanced_acc" then balanced_accuracy_score y_true y_pred
  else accuracy_score y_true y_pred

/-- Function `find_optimal_threshold(y_true, y_prob, metric)`: scan
`DECISION_THRESHOLDS` keeping the first strictly-improving
`(threshold, score)` pair, starting from `(0.5, 0)`. -/
def find_optimal_threshold (y_true : List ℕ) (y_prob : List ℚ)
    (metric : String) : ℚ × ℚ :=
  DECISION_THRESHOLDS.foldl
    (fun best threshold =>
      let score := thresholdScore metric y_true y_prob threshold
      if best.2 < score then (threshold, score) else best)
    (1/2, 0)

/-! ## Linear algebra world: the domain aligners
(`src/cross_dataset/domain_adaptation/`)

Feature matrices are `Matrix (Fin n) (Fin d) ℝ`: `n` samples (rows), `d`
features (columns); source and target share the feature dimension `d`. -/

/-- Constant `CORAL_REG_PARAM = 0.1`. -/
noncomputable def CORAL_REG_PARAM : ℝ := 1/10

/-- Constant `ENSEMBLE_WEIGHTS = [0.4, 0.4, 0.2]` (subspace, CORAL, scaling). -/
noncomputable def ENSEMBLE_WEIGHTS : Fin 3 → ℝ := ![4/10, 4/10, 2/10]

/-- Model of `np.mean(X, axis=0)`: per-feature (column) mean. -/
noncomputable def colMean {n d : ℕ} (X : Matrix (Fin n) (Fin d) ℝ) (j : Fin d) : ℝ :=
  (∑ i, X i j) / n

/-- Centering `X - np.mean(X, axis=0)`: subtract the per-feature mean from each row. -/
noncomputable def centerRows {n d : ℕ} (X : Matrix (Fin n) (Fin d) ℝ) :
    Matrix (Fin n) (Fin d) ℝ :=
  Matrix.of fun i j => X i j - colMean X j

/-- A matrix whose every row is the vector `v` (broadcast `+ target_mean`). -/
noncomputable def rowConst {n d : ℕ} (v : Fin d → ℝ) : Matrix (Fin n) (Fin d) ℝ :=
  Matrix.of fun _ j => v j

/-- Model of `np.cov(X, rowvar=False)`: sample covariance with `ddof = 1`. -/
noncomputable def npCov {n d : ℕ} (X : Matrix (Fin n) (Fin d) ℝ) :
    Matrix (Fin d) (Fin d) ℝ :=
  Matrix.of fun j k =>
    (∑ i, (X i j - colMean X j) * (X i k - colMean X k)) / ((n : ℝ) - 1)

open Classical in
/-- Model of `scipy.linalg.sqrtm` on the matrices this pipeline feeds it (symmetric
positive semidefinite regularized covariances): the unique positive
semidefinite square root, i.e. the principal/Hermitian branch.  On such
input the principal square root is real, so `np.real` is the identity
here.  (Outside that domain the model returns 0; the pipeline never calls
it there.) -/
noncomputable def sqrtm {d : ℕ} (A : Matrix (Fin d) (Fin d) ℝ) :
    Matrix (Fin d) (Fin d) ℝ :=
  if h : A.PosSemidef then h.sqrt else 0

/-- The regularized covariance computed inside `coral_transform` for each
domain: `np.cov(X_centered, rowvar=False) + np.eye(d) * reg_param`. -/
noncomputable def regularizedCov {n d : ℕ} (X : Matrix (Fin n) (Fin d) ℝ)
    (reg_param : ℝ) : Matrix (Fin d) (Fin d) ℝ :=
  npCov (centerRows X) + reg_param • (1 : Matrix (Fin d) (Fin d) ℝ)

/-- The failure condition of `coral_transform`'s `try` block:
`scipy.linalg.inv` raises `LinAlgError` precisely when its argument — the
square root of the regularized source covariance — is singular. -/
def coralSingular {n d : ℕ} (source_features : Matrix (Fin n) (Fin d) ℝ)
    (reg_param : ℝ) : Prop :=
  (sqrtm (regularizedCov source_features reg_param)).det = 0

open Classical in
/-- Function `coral_transform(source_features, target_features, reg_param)`:
center both domains, regularize both covariances, build
`transform = inv(sqrtm(Csrc)) @ sqrtm(Ctgt) @ inv(sqrtm(Csrc))` (the real
part — identity here, see `sqrtm`), and return
`source_centered @ transform + target_mean`.  The `except` branch (inverse
failure) returns the unmodified source matrix. -/
noncomputable def coral_transform {n m d : ℕ} (source_features : Matrix (Fin n) (Fin d) ℝ)
    (target_features : Matrix (Fin m) (Fin d) ℝ) (reg_param : ℝ) :
    Matrix (Fin n) (Fin d) ℝ :=
  if coralSingular source_features reg_param then source_features
  else
    let target_mean := colMean target_features
    let source_centered := centerRows source_features
    let target_cov := regularizedCov target_features reg_param
    let source_cov_inv_sqrt := (sqrtm (regularizedCov source_features reg_param))⁻¹
    let transform := source_cov_inv_sqrt * sqrtm target_cov * source_cov_inv_sqrt
    source_centered * transform + rowConst target_mean

open Classical in
/-- The `try` block of `coral_transform` as an `Option`: `none` is the
caught exception, `some` the computed value. -/
noncomputable def coralBody {n m d : ℕ} (source_features : Matrix (Fin n) (Fin d) ℝ)
    (target_features : Matrix (Fin m) (Fin d) ℝ) (reg_param : ℝ) :
    Option (Matrix (Fin n) (Fin d) ℝ) :=
  if coralSingular source_features reg_param then none
  else
    let target_mean := colMean target_features
    let source_centered := centerRows source_features
    let target_cov := regularizedCov target_features reg_param
    let source_cov_inv_sqrt := (sqrtm (regularizedCov source_features reg_param))⁻¹
    let transform := source_cov_inv_sqrt * sqrtm target_cov * source_cov_inv_sqrt
    some (source_centered * transform + rowConst target_mean)

/-- Modelled from the spec: the transformation the spec's words prescribe,
`transform = Csrc^(-1/2) · Ctgt^(1/2)` (two factors), applied as
`source_centered · transform + target_mean`.  Written only to be compared
with `coral_transform`, which the source code defines. -/
noncomputable def coral_spec_transform {n m d : ℕ}
    (source_features : Matrix (Fin n) (Fin d) ℝ)
    (target_features : Matrix (Fin m) (Fin d) ℝ) (reg_param : ℝ) :
    Matrix (Fin n) (Fin d) ℝ :=
  let target_mean := colMean target_features
  let source_centered := centerRows source_features
  let target_cov := regularizedCov target_features reg_param
  let transform := (sqrtm (regularizedCov source_features reg_param))⁻¹ * sqrtm target_cov
  source_centered * transform + rowConst target_mean

/-- Function `calculate_domain_discrepancy`: Euclidean distance between the
per-feature mean vectors. -/
noncomputable def calculate_domain_discrepancy {n m d : ℕ}
    (source_features : Matrix (Fin n) (Fin d) ℝ)
    (target_features : Matrix (Fin m) (Fin d) ℝ) : ℝ :=
  Real.sqrt (∑ j, (colMean source_features j - colMean target_features j) ^ 2)

/-- An external PCA fit: for a component count `k` and an `n × d` data
matrix, `sklearn.decomposition.PCA(k).fit(X).components_` is some `k × d`
matrix.  Its rows depend on the SVD of the data; the development is
parametric in this oracle. -/
def PCAOracle : Type :=
  (k n d : ℕ) → Matrix (Fin n) (Fin d) ℝ → Matrix (Fin k) (Fin d) ℝ

/-- The component count `subspace_alignment` settles on: the optional
argument (or `min(d//2 + 1, min(n_src, n_tgt) - 1)` raised to at least
`SUBSPACE_MIN_COMPONENTS` when absent), clamped to
`min(d, min(n_src, n_tgt) - 1)`. -/
def subspaceNComponents (n m d : ℕ) (n_components : Option ℕ) : ℕ :=
  let nc0 :=
    match n_components with
    | none => max (min (d / 2 + 1) (min n m - 1)) SUBSPACE_MIN_COMPONENTS
    | some k => k
  min nc0 (min d (min n m - 1))

/-- The `try` block of `subspace_alignment` as an `Option`: sklearn's
`PCA` rejects a component count below 1 (`none`, the caught exception);
otherwise project the centered source onto its own PCA basis
(`Xs = PCA.transform`), rotate by `Wsrc @ Wtgt^T`, and map back through
the target basis. -/
noncomputable def subspaceBody (pca : PCAOracle) {n m d : ℕ}
    (source_features : Matrix (Fin n) (Fin d) ℝ)
    (target_features : Matrix (Fin m) (Fin d) ℝ) (n_components : Option ℕ) :
    Option (Matrix (Fin n) (Fin d) ℝ) :=
  let nc := subspaceNComponents n m d n_components
  if nc < 1 then none
  else
    let source_components := pca nc n d source_features
    let target_components := pca nc m d target_features
    let Xs := centerRows source_features * source_components.transpose
    let transform_matrix := source_components * target_components.transpose
    some (Xs * transform_matrix * target_components)

/-- Function `subspace_alignment(source_features, target_features, n_components)`:
the `try` block above, with the `except` branch returning the unmodified
source matrix. -/
noncomputable def subspace_alignment (pca : PCAOracle) {n m d : ℕ}
    (source_features : Matrix (Fin n) (Fin d) ℝ)
    (target_features : Matrix (Fin m) (Fin d) ℝ) (n_components : Option ℕ) :
    Matrix (Fin n) (Fin d) ℝ :=
  let nc := subspaceNComponents n m d n_components
  if nc < 1 then source_features
  else
    let source_components := pca nc n d source_features
    let target_components := pca nc m d target_features
    let Xs := centerRows source_features * source_components.transpose
    let transform_matrix := source_components * target_components.transpose
    Xs * transform_matrix * target_components

open Classical in
/-- The per-feature scale of `sklearn.preprocessing.StandardScaler` fitted
on `X`: the population (`ddof = 0`) standard deviation, with zero scales
replaced by 1 (`_handle_zeros_in_scale`). -/
noncomputable def stdScale {m d : ℕ} (X : Matrix (Fin m) (Fin d) ℝ) (j : Fin d) : ℝ :=
  let s := Real.sqrt ((∑ i, (X i j - colMean X j) ^ 2) / m)
  if s = 0 then 1 else s

/-- Model of `StandardScaler().fit(target).transform(source)`. -/
noncomputable def stdScalerTransform {n m d : ℕ}
    (target_features : Matrix (Fin m) (Fin d) ℝ)
    (source_features : Matrix (Fin n) (Fin d) ℝ) : Matrix (Fin n) (Fin d) ℝ :=
  Matrix.of fun i j =>
    (source_features i j - colMean target_features j) / stdScale target_features j

/-- The component count `ensemble_domain_adaptation` passes to
`subspace_alignment`: `min(d, d, min(n, m) - 1) // 2`, clamped to `[2, 5]`. -/
def ensembleNComp (n m d : ℕ) : ℕ :=
  max 2 (min 5 (min d (min n m - 1) / 2))

/-- Function `ensemble_domain_adaptation(source_features, target_features, weights)`:
run subspace alignment, CORAL and target-fitted standard scaling
independently, normalize the weights by their sum, and return the weighted
sum.  `weights=None` means `ENSEMBLE_WEIGHTS`. -/
noncomputable def ensemble_domain_adaptation (pca : PCAOracle) {n m d : ℕ}
    (source_features : Matrix (Fin n) (Fin d) ℝ)
    (target_features : Matrix (Fin m) (Fin d) ℝ)
    (weights : Option (Fin 3 → ℝ)) : Matrix (Fin n) (Fin d) ℝ :=
  let w := weights.getD ENSEMBLE_WEIGHTS
  let adapted_subspace :=
    subspace_alignment pca source_features target_features (some (ensembleNComp n m d))
  let adapted_coral := coral_transform source_features target_features CORAL_REG_PARAM
  let adapted_scaled := stdScalerTransform target_features source_features
  let s := w 0 + w 1 + w 2
  (w 0 / s) • adapted_subspace + (w 1 / s) • adapted_coral + (w 2 / s) • adapted_scaled

/-- The dictionary `measure_domain_gap` returns. -/
structure GapInfo where
  gap_before : ℝ
  gap_after : Option ℝ
  gap_reduction : Option ℝ
  gap_reduction_percent : Option ℝ

open Classical in
/-- Function `measure_domain_gap(source, target, transformed)`: the mean-distance
gap before adaptation, and — when transformed features are supplied — the
gap after and the reduction `1 - gap_after/gap_before` (0 when
`gap_before` is not positive). -/
noncomputable def measure_domain_gap {n m p d : ℕ}
    (source_features : Matrix (Fin n) (Fin d) ℝ)
    (target_features : Matrix (Fin m) (Fin d) ℝ)
    (transformed_features : Option (Matrix (Fin p) (Fin d) ℝ)) : GapInfo :=
  let gap_before := calculate_domain_discrepancy source_features target_features
  match transformed_features with
  | some tf =>
    let gap_after := calculate_domain_discrepancy tf target_features
    let gap_reduction := if 0 < gap_before then 1 - gap_after / gap_before else 0
    ⟨gap_before, some gap_after, some gap_reduction, some (gap_reduction * 100)⟩
  | none => ⟨gap_before, none, none, none⟩

/-! ## The trainer's adaptation dispatch (`models/training.py`, the
`if adaptation_method:` block of `train_cross_dataset_model` and
`train_reverse_model`) -/

/-- Lines 94–117 of `train_cross_dataset_model` (and the identical block of
`train_reverse_model`): given the scaled balanced source and the scaled
target, pick the features the classifier ensemble is fit on, plus the gap
report.  A falsy method (absent or empty string) and every method string
other than `'ensemble'` (the latter after printing
`"Unknown adaptation method"`) leave the scaled source unmodified. -/
noncomputable def selectTrainingFeatures (pca : PCAOracle) {n m d : ℕ}
    (adaptation_method : Option String)
    (source_scaled : Matrix (Fin n) (Fin d) ℝ)
    (target_scaled : Matrix (Fin m) (Fin d) ℝ) :
    Matrix (Fin n) (Fin d) ℝ × Option GapInfo :=
  match adaptation_method with
  | some s =>
    if s = "" then (source_scaled, none)
    else if s = "ensemble" then
      let adapted := ensemble_domain_adaptation pca source_scaled target_scaled none
      (adapted, some (measure_domain_gap source_scaled target_scaled (some adapted)))
    else (source_scaled, none)
  | none => (source_scaled, none)

/-! ## Lemmas about the class balancer -/

lemma check_class_imbalance_two (y : List ℕ) (c0 c1 : ℕ) (hb : bincount y = [c0, c1]) :
    (check_class_imbalance y).2 = ((min c0 c1 : ℕ) : ℚ) / ((max c0 c1 : ℕ) : ℚ) := by
  unfold check_class_imbalance
  rw [hb]
  simp [List.min?, List.max?]

lemma smote_fit_resample_eval (gen : ℕ → List ℚ) (X : List (List ℚ)) (y : List ℕ)
    (c0 c1 : ℕ) (hb : bincount y = [c0, c1]) (h5 : 5 < min c0 c1) (k : ℕ)
    (hk : Nat.floor (SAMPLING_STRATEGY * ((max c0 c1 : ℕ) : ℚ)) = min c0 c1 + k) :
    smote_fit_resample gen X y =
      some (X ++ (List.range k).map gen, y ++ List.replicate k (minorityLabel y)) := by
  simp only [smote_fit_resample, hb]
  simp only [List.getD_cons_zero, List.getD_cons_succ]
  rw [hk]
  simp [Nat.not_le.mpr h5]
  omega

lemma check_not_needed_of_ratio_ge (y : List ℕ)
    (h : CLASS_BALANCE_THRESHOLD ≤ (check_class_imbalance y).2) :
    (check_class_imbalance y).1 = false := by
  unfold check_class_imbalance at h ⊢
  by_cases hl : (bincount y).length < 2
  · simp [hl]
  · simp only [hl, if_false] at h ⊢
    simp only [decide_eq_false_iff_not, not_lt]
    exact h

/-- Claim C9. For every input whose minority/majority count ratio is at least
`CLASS_BALANCE_THRESHOLD = 0.7`, `apply_class_balancing` returns the input
pair unchanged, whatever the method and whatever the external resamplers
would do. -/
theorem apply_class_balancing_identity_of_balanced
    (gen : ℕ → List ℚ)
    (adasynR smoteennR : List (List ℚ) → List ℕ → Option (List (List ℚ) × List ℕ))
    (autoB : List (List ℚ) → List ℕ → List (List ℚ) × List ℕ)
    (X : List (List ℚ)) (y : List ℕ) (method : String)
    (h : CLASS_BALANCE_THRESHOLD ≤ (check_class_imbalance y).2) :
    apply_class_balancing gen adasynR smoteennR autoB X y method = (X, y) := by
  unfold apply_class_balancing
  simp [check_not_needed_of_ratio_ge y h]

/-- Witness for C9 at a concrete balanced input. -/
theorem apply_class_balancing_identity_witness :
    CLASS_BALANCE_THRESHOLD ≤ (check_class_imbalance [0, 0, 0, 1, 1, 1]).2 ∧
    apply_class_balancing (fun _ => []) (fun _ _ => none) (fun _ _ => none)
      (fun X y => (X, y)) [[1], [2]] [0, 0, 0, 1, 1, 1] "SMOTE" = ([[1], [2]], [0, 0, 0, 1, 1, 1]) := by
  have h : CLASS_BALANCE_THRESHOLD ≤ (check_class_imbalance [0, 0, 0, 1, 1, 1]).2 := by
    rw [check_class_imbalance_two _ 3 3 (by decide)]
    norm_num [CLASS_BALANCE_THRESHOLD]
  exact ⟨h, apply_class_balancing_identity_of_balanced _ _ _ _ _ _ _ h⟩

lemma check_needed_of_ratio_lt (y : List ℕ)
    (h : (check_class_imbalance y).2 < CLASS_BALANCE_THRESHOLD) :
    (check_class_imbalance y).1 = true := by
  unfold check_class_imbalance at h ⊢
  by_cases hl : (bincount y).length < 2
  · simp only [hl, if_true] at h
    norm_num [CLASS_BALANCE_THRESHOLD] at h
  · simp only [hl, if_false] at h ⊢
    simpa using h

/-- Claim C3. When the minority/majority ratio is below 0.7 and SMOTE (the
configured strategy, `CLASS_BALANCE_METHOD`) succeeds, `apply_class_balancing`
returns the resampled pair: the original rows followed by `k` regenerated
minority-class rows, hence at least as many rows as the input. -/
theorem apply_class_balancing_oversamples
    (gen : ℕ → List ℚ)
    (adasynR smoteennR : List (List ℚ) → List ℕ → Option (List (List ℚ) × List ℕ))
    (autoB : List (List ℚ) → List ℕ → List (List ℚ) × List ℕ)
    (X : List (List ℚ)) (y : List ℕ) (X' : List (List ℚ)) (y' : List ℕ)
    (hr : (check_class_imbalance y).2 < CLASS_BALANCE_THRESHOLD)
    (hs : smote_fit_resample gen X y = some (X', y')) :
    apply_class_balancing gen adasynR smoteennR autoB X y CLASS_BALANCE_METHOD = (X', y') ∧
    X.length ≤ X'.length ∧
    ∃ k, X' = X ++ (List.range k).map gen ∧
      y' = y ++ List.replicate k (minorityLabel y) := by
  have happ : apply_class_balancing gen adasynR smoteennR autoB X y CLASS_BALANCE_METHOD
      = (X', y') := by
    unfold apply_class_balancing
    simp [check_needed_of_ratio_lt y hr, CLASS_BALANCE_METHOD, hs]
  have hstruct : X.length ≤ X'.length ∧
      ∃ k, X' = X ++ (List.range k).map gen ∧
        y' = y ++ List.replicate k (minorityLabel y) := by
    simp only [smote_fit_resample] at hs
    split at hs
    · exact absurd hs (by simp)
    · split at hs
      · exact absurd hs (by simp)
      · split at hs
        · exact absurd hs (by simp)
        · simp only [Option.some.injEq, Prod.mk.injEq] at hs
          refine ⟨?_, _, hs.1.symm, hs.2.symm⟩
          rw [← hs.1]
          simp
  exact ⟨happ, hstruct.1, hstruct.2⟩

/-- Witness for C3: 20 majority / 6 minority samples (ratio 0.3), SMOTE
appends 10 synthetic minority rows (to reach `int(0.8·20) = 16`). -/
theorem apply_class_balancing_oversamples_witness :
    26 ≤ (apply_class_balancing (fun i => [(i : ℚ)]) (fun _ _ => none) (fun _ _ => none)
      (fun X y => (X, y)) (List.replicate 26 ([0] : List ℚ))
      (List.replicate 20 0 ++ List.replicate 6 1) CLASS_BALANCE_METHOD).1.length := by
  have hb : bincount (List.replicate 20 0 ++ List.replicate 6 1) = [20, 6] := by decide
  have hr : (check_class_imbalance (List.replicate 20 0 ++ List.replicate 6 1)).2
      < CLASS_BALANCE_THRESHOLD := by
    rw [check_class_imbalance_two _ 20 6 hb]
    rw [show (min 20 6 : ℕ) = 6 from by decide, show (max 20 6 : ℕ) = 20 from by decide]
    norm_num [CLASS_BALANCE_THRESHOLD]
  have hm : minorityLabel (List.replicate 20 0 ++ List.replicate 6 1) = 1 := by decide
  have hs := smote_fit_resample_eval (fun i => [(i : ℚ)])
    (List.replicate 26 ([0] : List ℚ)) (List.replicate 20 0 ++ List.replicate 6 1)
    20 6 hb (by decide) 10
    (by rw [show (max 20 6 : ℕ) = 20 from by decide, show (min 20 6 : ℕ) = 6 from by decide]
        norm_num [SAMPLING_STRATEGY])
  rw [hm] at hs
  have h := apply_class_balancing_oversamples (fun i => [(i : ℚ)])
    (fun _ _ => none) (fun _ _ => none) (fun X y => (X, y))
    (List.replicate 26 ([0] : List ℚ)) (List.replicate 20 0 ++ List.replicate 6 1)
    (List.replicate 26 ([0] : List ℚ) ++ (List.range 10).map (fun i => [(i : ℚ)]))
    ((List.replicate 20 0 ++ List.replicate 6 1) ++ List.replicate 10 1)
    hr hs
  rw [h.1]
  simp

/-! ## Lemmas about sample weights and the fit sequence -/

lemma le_foldl_max (y : List ℕ) (a : ℕ) : a ≤ y.foldl max a := by
  induction y generalizing a with
  | nil => exact le_refl a
  | cons hd tl ih => exact le_trans (le_max_left a hd) (ih (max a hd))

lemma mem_le_foldl_max (y : List ℕ) (a : ℕ) : ∀ l ∈ y, l ≤ y.foldl max a := by
  induction y generalizing a with
  | nil => intro l hl; cases hl
  | cons hd tl ih =>
    intro l hl
    rcases List.mem_cons.mp hl with h | h
    · subst h
      exact le_trans (le_max_right a l) (le_foldl_max tl (max a l))
    · exact ih (max a hd) l h

lemma foldl_max_le (y : List ℕ) (a b : ℕ) (ha : a ≤ b) (h : ∀ l ∈ y, l ≤ b) :
    y.foldl max a ≤ b := by
  induction y generalizing a with
  | nil => exact ha
  | cons hd tl ih =>
    exact ih (max a hd) (max_le ha (h hd (List.mem_cons_self hd tl)))
      (fun l hl => h l (List.mem_cons_of_mem hd hl))

lemma foldl_max_eq_one (y : List ℕ) (hsub : ∀ l ∈ y, l ≤ 1) (h1 : 1 ∈ y) :
    y.foldl max 0 = 1 :=
  le_antisymm (foldl_max_le y 0 1 (Nat.zero_le 1) hsub) (mem_le_foldl_max y 0 1 h1)

lemma bincount_length (y : List ℕ) (hy : y ≠ []) :
    (bincount y).length = y.foldl max 0 + 1 := by
  unfold bincount
  match y, hy with
  | a :: l, _ => simp

lemma bincount_getD (y : List ℕ) (hy : y ≠ []) (l : ℕ) (hl : l < y.foldl max 0 + 1) :
    (bincount y).getD l 0 = y.countP (· = l) := by
  unfold bincount
  match y, hy with
  | a :: as, _ =>
    rw [List.getD_eq_getElem?_getD, List.getElem?_map, List.getElem?_range hl]
    rfl

/-- Claim C6. After the combined voting fit, exactly the boosted-tree member
`gb` is refit a second time, on the same training features, with weights
`n / (n_classes · count[class of the sample])` (for binary labels
`n_classes = 2`); the bagged-tree and kernel members receive exactly one
unweighted fit each. -/
theorem gb_refit_with_sample_weights {α : Type} (X_train : α) (y : List ℕ)
    (hsub : ∀ l ∈ y, l ≤ 1) (h0 : 0 ∈ y) (h1 : 1 ∈ y) :
    (trainEnsembleFits X_train y).rf = [⟨X_train, y, none⟩] ∧
    (trainEnsembleFits X_train y).svm = [⟨X_train, y, none⟩] ∧
    (trainEnsembleFits X_train y).gb =
      [⟨X_train, y, none⟩,
       ⟨X_train, y,
        some (y.map fun l => (y.length : ℚ) / (2 * ((y.countP (· = l) : ℕ) : ℚ)))⟩] := by
  have hy : y ≠ [] := List.ne_nil_of_mem h0
  have hmax := foldl_max_eq_one y hsub h1
  have hw : create_sample_weights y =
      y.map fun l => (y.length : ℚ) / (2 * ((y.countP (· = l) : ℕ) : ℚ)) := by
    unfold create_sample_weights
    refine List.map_congr_left ?_
    intro l hl
    dsimp only
    rw [bincount_length y hy, hmax,
      bincount_getD y hy l (by rw [hmax]; exact Nat.lt_succ_of_le (hsub l hl))]
    norm_num
  refine ⟨rfl, rfl, ?_⟩
  unfold trainEnsembleFits
  rw [hw]

/-- Witness for C6 at `y = [0, 1, 1]`. -/
theorem gb_refit_with_sample_weights_witness :
    (trainEnsembleFits (0 : ℕ) [0, 1, 1]).rf = [⟨0, [0, 1, 1], none⟩] ∧
    (trainEnsembleFits (0 : ℕ) [0, 1, 1]).svm = [⟨0, [0, 1, 1], none⟩] ∧
    (trainEnsembleFits (0 : ℕ) [0, 1, 1]).gb =
      [⟨0, [0, 1, 1], none⟩,
       ⟨0, [0, 1, 1],
        some ([0, 1, 1].map fun l =>
          (([0, 1, 1] : List ℕ).length : ℚ) /
            (2 * ((([0, 1, 1] : List ℕ).countP (· = l) : ℕ) : ℚ)))⟩] :=
  gb_refit_with_sample_weights (0 : ℕ) [0, 1, 1] (by decide) (by decide) (by decide)

/-! ## Lemmas about the threshold search -/

lemma recallOf_nonneg (y_true y_pred : List ℕ) (l : ℕ) : 0 ≤ recallOf y_true y_pred l :=
  div_nonneg (Nat.cast_nonneg _) (Nat.cast_nonneg _)

lemma precisionOf_nonneg (y_true y_pred : List ℕ) (l : ℕ) : 0 ≤ precisionOf y_true y_pred l :=
  div_nonneg (Nat.cast_nonneg _) (Nat.cast_nonneg _)

lemma f1Of_nonneg (y_true y_pred : List ℕ) (l : ℕ) : 0 ≤ f1Of y_true y_pred l := by
  unfold f1Of
  have hp := precisionOf_nonneg y_true y_pred l
  have hr := recallOf_nonneg y_true y_pred l
  positivity

lemma f1Macro_nonneg (y_true y_pred : List ℕ) : 0 ≤ f1Macro y_true y_pred := by
  unfold f1Macro
  refine div_nonneg (List.sum_nonneg ?_) (Nat.cast_nonneg _)
  intro x hx
  rcases List.mem_map.mp hx with ⟨l, _, rfl⟩
  exact f1Of_nonneg y_true y_pred l

lemma balanced_accuracy_score_nonneg (y_true y_pred : List ℕ) :
    0 ≤ balanced_accuracy_score y_true y_pred := by
  unfold balanced_accuracy_score
  refine div_nonneg (List.sum_nonneg ?_) (Nat.cast_nonneg _)
  intro x hx
  rcases List.mem_map.mp hx with ⟨l, _, rfl⟩
  exact recallOf_nonneg y_true y_pred l

lemma accuracy_score_nonneg (y_true y_pred : List ℕ) : 0 ≤ accuracy_score y_true y_pred :=
  div_nonneg (Nat.cast_nonneg _) (Nat.cast_nonneg _)

lemma thresholdScore_nonneg (metric : String) (y_true : List ℕ) (y_prob : List ℚ)
    (t : ℚ) : 0 ≤ thresholdScore metric y_true y_prob t := by
  unfold thresholdScore
  split
  · exact f1Macro_nonneg _ _
  · split
    · exact balanced_accuracy_score_nonneg _ _
    · exact accuracy_score_nonneg _ _

lemma foldl_threshold_spec (f : ℚ → ℚ) (L : List ℚ) (b s : ℚ) :
    (L.foldl (fun best t => if best.2 < f t then (t, f t) else best) (b, s) = (b, s) ∨
      ((L.foldl (fun best t => if best.2 < f t then (t, f t) else best) (b, s)).1 ∈ L ∧
       (L.foldl (fun best t => if best.2 < f t then (t, f t) else best) (b, s)).2 =
         f (L.foldl (fun best t => if best.2 < f t then (t, f t) else best) (b, s)).1)) ∧
    (∀ t ∈ L, f t ≤ (L.foldl (fun best t => if best.2 < f t then (t, f t) else best) (b, s)).2) ∧
    s ≤ (L.foldl (fun best t => if best.2 < f t then (t, f t) else best) (b, s)).2 := by
  induction L generalizing b s with
  | nil => simp
  | cons t L ih =>
    by_cases h : s < f t
    · have h' := ih t (f t)
      rw [List.foldl_cons]
      simp only [if_pos h]
      refine ⟨?_, ?_, ?_⟩
      · rcases h'.1 with heq | hmem
        · right
          rw [heq]
          exact ⟨List.mem_cons_self t L, rfl⟩
        · right
          exact ⟨List.mem_cons_of_mem t hmem.1, hmem.2⟩
      · intro t' ht'
        rcases List.mem_cons.mp ht' with rfl | ht'
        · exact h'.2.2
        · exact h'.2.1 t' ht'
      · exact le_trans (le_of_lt h) h'.2.2
    · have h' := ih b s
      rw [List.foldl_cons]
      simp only [if_neg h]
      refine ⟨?_, ?_, ?_⟩
      · rcases h'.1 with heq | hmem
        · left; exact heq
        · right; exact ⟨List.mem_cons_of_mem t hmem.1, hmem.2⟩
      · intro t' ht'
        rcases List.mem_cons.mp ht' with rfl | ht'
        · exact le_trans (not_lt.mp h) h'.2.2
        · exact h'.2.1 t' ht'
      · exact h'.2.2

/-- Claim C5. `find_optimal_threshold` returns a threshold from the grid
`DECISION_THRESHOLDS = {0.2, 0.25, ..., 0.8}` whose score in the chosen
metric is maximal over the grid, together with that score. -/
theorem find_optimal_threshold_maximizes (y_true : List ℕ) (y_prob : List ℚ)
    (metric : String) :
    (find_optimal_threshold y_true y_prob metric).1 ∈ DECISION_THRESHOLDS ∧
    (find_optimal_threshold y_true y_prob metric).2 =
      thresholdScore metric y_true y_prob (find_optimal_threshold y_true y_prob metric).1 ∧
    ∀ t ∈ DECISION_THRESHOLDS,
      thresholdScore metric y_true y_prob t ≤ (find_optimal_threshold y_true y_prob metric).2 := by
  have hspec := foldl_threshold_spec (thresholdScore metric y_true y_prob)
    DECISION_THRESHOLDS (1/2) 0
  have hfold : find_optimal_threshold y_true y_prob metric =
      DECISION_THRESHOLDS.foldl
        (fun best t =>
          if best.2 < thresholdScore metric y_true y_prob t
          then (t, thresholdScore metric y_true y_prob t) else best) (1/2, 0) := rfl
  rw [hfold]
  rcases hspec.1 with heq | hmem
  · rw [heq]
    have hhalf : (1/2 : ℚ) ∈ DECISION_THRESHOLDS := by
      unfold DECISION_THRESHOLDS
      norm_num
    have hle : thresholdScore metric y_true y_prob (1/2) ≤ 0 := by
      have := hspec.2.1 (1/2) hhalf
      rw [heq] at this
      exact this
    refine ⟨hhalf, ?_, ?_⟩
    · exact (le_antisymm hle (thresholdScore_nonneg metric y_true y_prob (1/2))).symm
    · intro t ht
      have := hspec.2.1 t ht
      rw [heq] at this
      exact this
  · exact ⟨hmem.1, hmem.2, hspec.2.1⟩

/-- Witness for C5: one grid point's score is bounded by the returned
score at a concrete input. -/
theorem find_optimal_threshold_maximizes_witness :
    thresholdScore "f1" [0, 1] [1/10, 9/10] (2/10) ≤
      (find_optimal_threshold [0, 1] [1/10, 9/10] "f1").2 :=
  (find_optimal_threshold_maximizes [0, 1] [1/10, 9/10] "f1").2.2 (2/10)
    (by simp [DECISION_THRESHOLDS])

/-! ## Lemmas about column means and the aligners -/

lemma colMean_centerRows {n d : ℕ} (X : Matrix (Fin n) (Fin d) ℝ) (j : Fin d) :
    colMean (centerRows X) j = 0 := by
  unfold colMean centerRows
  rcases Nat.eq_zero_or_pos n with h | h
  · subst h
    simp
  · have hn : (n : ℝ) ≠ 0 := Nat.cast_ne_zero.mpr h.ne'
    simp only [Matrix.of_apply]
    rw [Finset.sum_sub_distrib, Finset.sum_const, Finset.card_univ, Fintype.card_fin,
      nsmul_eq_mul]
    unfold colMean
    field_simp

lemma colMean_matMul {n d e : ℕ} (A : Matrix (Fin n) (Fin d) ℝ)
    (B : Matrix (Fin d) (Fin e) ℝ) (j : Fin e) :
    colMean (A * B) j = ∑ k, colMean A k * B k j := by
  unfold colMean
  simp only [Matrix.mul_apply]
  rw [Finset.sum_comm, Finset.sum_div]
  refine Finset.sum_congr rfl fun k _ => ?_
  rw [← Finset.sum_mul, div_mul_eq_mul_div]

lemma colMean_add {n d : ℕ} (A B : Matrix (Fin n) (Fin d) ℝ) (j : Fin d) :
    colMean (A + B) j = colMean A j + colMean B j := by
  unfold colMean
  simp only [Matrix.add_apply]
  rw [Finset.sum_add_distrib, add_div]

lemma colMean_rowConst {n d : ℕ} (hn : 0 < n) (v : Fin d → ℝ) (j : Fin d) :
    colMean (rowConst v : Matrix (Fin n) (Fin d) ℝ) j = v j := by
  unfold colMean rowConst
  have hne : (n : ℝ) ≠ 0 := Nat.cast_ne_zero.mpr hn.ne'
  simp only [Matrix.of_apply]
  rw [Finset.sum_const, Finset.card_univ, Fintype.card_fin, nsmul_eq_mul,
    mul_div_assoc]
  field_simp

lemma discrepancy_nonneg {n m d : ℕ} (A : Matrix (Fin n) (Fin d) ℝ)
    (B : Matrix (Fin m) (Fin d) ℝ) : 0 ≤ calculate_domain_discrepancy A B :=
  Real.sqrt_nonneg _

lemma discrepancy_eq_zero_of_colMean_eq {n m d : ℕ} (A : Matrix (Fin n) (Fin d) ℝ)
    (B : Matrix (Fin m) (Fin d) ℝ) (h : ∀ j, colMean A j = colMean B j) :
    calculate_domain_discrepancy A B = 0 := by
  unfold calculate_domain_discrepancy
  have : ∀ j ∈ Finset.univ, (colMean A j - colMean B j) ^ 2 = 0 := by
    intro j _
    rw [h j, sub_self]
    ring
  rw [Finset.sum_congr rfl this]
  simp

/-- Claim C4. Neither `coral_transform` nor `subspace_alignment` lets an
internal failure escape: each always returns either its `try`-block value
(`coralBody` / `subspaceBody` succeeding with `some`) or, exactly when that
body fails (`none`), the unmodified source matrix. -/
theorem aligners_never_raise (pca : PCAOracle) {n m d : ℕ}
    (src : Matrix (Fin n) (Fin d) ℝ) (tgt : Matrix (Fin m) (Fin d) ℝ)
    (reg : ℝ) (nc : Option ℕ) :
    (match coralBody src tgt reg with
     | some M => coral_transform src tgt reg = M
     | none => coral_transform src tgt reg = src) ∧
    (match subspaceBody pca src tgt nc with
     | some M => subspace_alignment pca src tgt nc = M
     | none => subspace_alignment pca src tgt nc = src) := by
  constructor
  · by_cases h : coralSingular src reg
    · simp [coralBody, coral_transform, h]
    · simp [coralBody, coral_transform, h]
  · by_cases h : subspaceNComponents n m d nc < 1
    · simp [subspaceBody, subspace_alignment, h]
    · simp [subspaceBody, subspace_alignment, h]

/-- Claim C7. The gap metric is non-negative and, with transformed features
supplied, `measure_domain_gap` reports `gap_reduction = 1 - gap_after/gap_before`
whenever `gap_before > 0` and the sentinel 0 when `gap_before = 0`. -/
theorem measure_domain_gap_reduction {n m p d : ℕ}
    (src : Matrix (Fin n) (Fin d) ℝ) (tgt : Matrix (Fin m) (Fin d) ℝ)
    (tf : Matrix (Fin p) (Fin d) ℝ) :
    0 ≤ (measure_domain_gap src tgt (some tf)).gap_before ∧
    (measure_domain_gap src tgt (some tf)).gap_after =
      some (calculate_domain_discrepancy tf tgt) ∧
    0 ≤ calculate_domain_discrepancy tf tgt ∧
    (0 < (measure_domain_gap src tgt (some tf)).gap_before →
      (measure_domain_gap src tgt (some tf)).gap_reduction =
        some (1 - calculate_domain_discrepancy tf tgt /
          calculate_domain_discrepancy src tgt)) ∧
    ((measure_domain_gap src tgt (some tf)).gap_before = 0 →
      (measure_domain_gap src tgt (some tf)).gap_reduction = some 0) := by
  unfold measure_domain_gap
  refine ⟨discrepancy_nonneg _ _, rfl, discrepancy_nonneg _ _, ?_, ?_⟩
  · intro h
    simp only at h ⊢
    rw [if_pos h]
  · intro h
    simp only at h ⊢
    rw [if_neg (by rw [h]; exact lt_irrefl 0)]

/-- Witness for C7: a pair with positive gap (`gap_before = 1`) and a pair
with zero gap, both through `measure_domain_gap_reduction`. -/
theorem measure_domain_gap_reduction_witness :
    (measure_domain_gap (Matrix.of ![![(0 : ℝ)]]) (Matrix.of ![![(1 : ℝ)]])
        (some (Matrix.of ![![(0 : ℝ)]]))).gap_reduction =
      some (1 - calculate_domain_discrepancy (Matrix.of ![![(0 : ℝ)]]) (Matrix.of ![![(1 : ℝ)]]) /
        calculate_domain_discrepancy (Matrix.of ![![(0 : ℝ)]]) (Matrix.of ![![(1 : ℝ)]])) ∧
    (measure_domain_gap (Matrix.of ![![(0 : ℝ)]]) (Matrix.of ![![(0 : ℝ)]])
        (some (Matrix.of ![![(1 : ℝ)]]))).gap_reduction = some 0 := by
  have hmean0 : colMean (Matrix.of ![![(0 : ℝ)]]) 0 = 0 := by
    unfold colMean
    simp
  have hmean1 : colMean (Matrix.of ![![(1 : ℝ)]]) 0 = 1 := by
    unfold colMean
    simp
  have hd1 : calculate_domain_discrepancy (Matrix.of ![![(0 : ℝ)]])
      (Matrix.of ![![(1 : ℝ)]]) = 1 := by
    unfold calculate_domain_discrepancy
    rw [Fin.sum_univ_one, hmean0, hmean1]
    norm_num
  have hd0 : calculate_domain_discrepancy (Matrix.of ![![(0 : ℝ)]])
      (Matrix.of ![![(0 : ℝ)]]) = 0 :=
    discrepancy_eq_zero_of_colMean_eq _ _ (fun j => rfl)
  have hbefore : ∀ {n m p : ℕ} (A : Matrix (Fin n) (Fin 1) ℝ) (B : Matrix (Fin m) (Fin 1) ℝ)
      (C : Matrix (Fin p) (Fin 1) ℝ),
      (measure_domain_gap A B (some C)).gap_before = calculate_domain_discrepancy A B :=
    fun _ _ _ => rfl
  constructor
  · exact (measure_domain_gap_reduction _ _ _).2.2.2.1 (by rw [hbefore, hd1]; norm_num)
  · exact (measure_domain_gap_reduction _ _ _).2.2.2.2 (by rw [hbefore, hd0])

/-- Claim C8. For any weight vector with positive sum, `ensemble_domain_adaptation`
renormalizes the weights to sum to 1 and returns exactly the weighted sum of
the three individually computed adaptations (subspace, CORAL, rescaling). -/
theorem ensemble_domain_adaptation_weighted_sum (pca : PCAOracle) {n m d : ℕ}
    (src : Matrix (Fin n) (Fin d) ℝ) (tgt : Matrix (Fin m) (Fin d) ℝ)
    (w : Fin 3 → ℝ) (hw : 0 < w 0 + w 1 + w 2) :
    w 0 / (w 0 + w 1 + w 2) + w 1 / (w 0 + w 1 + w 2) + w 2 / (w 0 + w 1 + w 2) = 1 ∧
    ensemble_domain_adaptation pca src tgt (some w) =
      (w 0 / (w 0 + w 1 + w 2)) •
          subspace_alignment pca src tgt (some (ensembleNComp n m d)) +
        (w 1 / (w 0 + w 1 + w 2)) • coral_transform src tgt CORAL_REG_PARAM +
        (w 2 / (w 0 + w 1 + w 2)) • stdScalerTransform tgt src := by
  constructor
  · field_simp
  · rfl

/-- Witness for C8 at weights `(2, 3, 5)` on concrete 1×1 inputs. -/
theorem ensemble_domain_adaptation_weighted_sum_witness :
    (![2, 3, 5] : Fin 3 → ℝ) 0 / ((![2, 3, 5] : Fin 3 → ℝ) 0 + (![2, 3, 5] : Fin 3 → ℝ) 1 + (![2, 3, 5] : Fin 3 → ℝ) 2) +
        (![2, 3, 5] : Fin 3 → ℝ) 1 / ((![2, 3, 5] : Fin 3 → ℝ) 0 + (![2, 3, 5] : Fin 3 → ℝ) 1 + (![2, 3, 5] : Fin 3 → ℝ) 2) +
        (![2, 3, 5] : Fin 3 → ℝ) 2 / ((![2, 3, 5] : Fin 3 → ℝ) 0 + (![2, 3, 5] : Fin 3 → ℝ) 1 + (![2, 3, 5] : Fin 3 → ℝ) 2) = 1 ∧
    ensemble_domain_adaptation (fun _ _ _ _ => 0) (Matrix.of ![![(0 : ℝ)]])
        (Matrix.of ![![(0 : ℝ)]]) (some (![2, 3, 5] : Fin 3 → ℝ)) =
      ((![2, 3, 5] : Fin 3 → ℝ) 0 / ((![2, 3, 5] : Fin 3 → ℝ) 0 + (![2, 3, 5] : Fin 3 → ℝ) 1 + (![2, 3, 5] : Fin 3 → ℝ) 2)) •
          subspace_alignment (fun _ _ _ _ => 0) (Matrix.of ![![(0 : ℝ)]])
            (Matrix.of ![![(0 : ℝ)]]) (some (ensembleNComp 1 1 1)) +
        ((![2, 3, 5] : Fin 3 → ℝ) 1 / ((![2, 3, 5] : Fin 3 → ℝ) 0 + (![2, 3, 5] : Fin 3 → ℝ) 1 + (![2, 3, 5] : Fin 3 → ℝ) 2)) •
          coral_transform (Matrix.of ![![(0 : ℝ)]]) (Matrix.of ![![(0 : ℝ)]])
            CORAL_REG_PARAM +
        ((![2, 3, 5] : Fin 3 → ℝ) 2 / ((![2, 3, 5] : Fin 3 → ℝ) 0 + (![2, 3, 5] : Fin 3 → ℝ) 1 + (![2, 3, 5] : Fin 3 → ℝ) 2)) •
          stdScalerTransform (Matrix.of ![![(0 : ℝ)]]) (Matrix.of ![![(0 : ℝ)]]) :=
  ensemble_domain_adaptation_weighted_sum (fun _ _ _ _ => 0)
    (Matrix.of ![![(0 : ℝ)]]) (Matrix.of ![![(0 : ℝ)]]) ![2, 3, 5]
    (by norm_num [Matrix.cons_val_zero, Matrix.cons_val_one, Matrix.head_cons])

/-- Claim C2 (code behavior). The trainer's dispatch treats `'coral'` and
`'subspace'` as unknown methods: the classifier is fit on the scaled source
unmodified, exactly as for `'none'`/absent; only `'ensemble'` triggers an
alignment. -/
theorem selectTrainingFeatures_dispatch (pca : PCAOracle) {n m d : ℕ}
    (src : Matrix (Fin n) (Fin d) ℝ) (tgt : Matrix (Fin m) (Fin d) ℝ) :
    (selectTrainingFeatures pca (some "coral") src tgt).1 = src ∧
    (selectTrainingFeatures pca (some "subspace") src tgt).1 = src ∧
    (selectTrainingFeatures pca (some "ensemble") src tgt).1 =
      ensemble_domain_adaptation pca src tgt none ∧
    (selectTrainingFeatures pca none src tgt).1 = src := by
  refine ⟨?_, ?_, ?_, rfl⟩ <;> simp [selectTrainingFeatures]

/-! ## Evaluating `sqrtm` on concrete 1×1 matrices -/

lemma posSemidef_one_one (c : ℝ) (hc : 0 ≤ c) :
    (Matrix.of ![![c]] : Matrix (Fin 1) (Fin 1) ℝ).PosSemidef := by
  have hdiag : (Matrix.of ![![c]] : Matrix (Fin 1) (Fin 1) ℝ) = Matrix.diagonal ![c] := by
    apply Matrix.ext
    intro i j
    fin_cases i
    fin_cases j
    simp [Matrix.diagonal]
  rw [hdiag]
  refine Matrix.posSemidef_diagonal_iff.mpr ?_
  intro i
  fin_cases i
  simpa using hc

lemma sqrtm_one_one (a c : ℝ) (ha : 0 ≤ a) (hac : a * a = c) :
    sqrtm (Matrix.of ![![c]] : Matrix (Fin 1) (Fin 1) ℝ) = Matrix.of ![![a]] := by
  have hA : (Matrix.of ![![c]] : Matrix (Fin 1) (Fin 1) ℝ).PosSemidef :=
    posSemidef_one_one c (hac ▸ mul_self_nonneg a)
  have hB : (Matrix.of ![![a]] : Matrix (Fin 1) (Fin 1) ℝ).PosSemidef :=
    posSemidef_one_one a ha
  have hsq : (Matrix.of ![![a]] : Matrix (Fin 1) (Fin 1) ℝ) ^ 2 = Matrix.of ![![c]] := by
    rw [pow_two]
    apply Matrix.ext
    intro i j
    fin_cases i
    fin_cases j
    simpa [Matrix.mul_apply] using hac
  unfold sqrtm
  rw [dif_pos hA]
  exact (hB.eq_sqrt_of_sq_eq hA hsq).symm

lemma inv_one_one (a : ℝ) (ha : a ≠ 0) :
    (Matrix.of ![![a]] : Matrix (Fin 1) (Fin 1) ℝ)⁻¹ = Matrix.of ![![a⁻¹]] := by
  apply Matrix.inv_eq_right_inv
  apply Matrix.ext
  intro i j
  fin_cases i
  fin_cases j
  simp [Matrix.mul_apply, Matrix.one_apply]
  field_simp

/-! ## A concrete input where the two CORAL formulas differ

Source rows `(0, 0.45, 0.9)`: variance `(9/20)² = 81/400`, regularized
covariance `121/400 = (11/20)²`.  Target rows `(0, 0.15, 0.3)`: variance
`9/400`, regularized covariance `49/400 = (7/20)²`. -/

noncomputable def srcEx : Matrix (Fin 3) (Fin 1) ℝ :=
  Matrix.of ![![0], ![9/20], ![9/10]]

noncomputable def tgtEx : Matrix (Fin 3) (Fin 1) ℝ :=
  Matrix.of ![![0], ![3/20], ![3/10]]

lemma colMean_srcEx (j : Fin 1) : colMean srcEx j = 9/20 := by
  rw [Fin.eq_zero j]
  unfold colMean srcEx
  rw [Fin.sum_univ_three]
  norm_num

lemma colMean_tgtEx (j : Fin 1) : colMean tgtEx j = 3/20 := by
  rw [Fin.eq_zero j]
  unfold colMean tgtEx
  rw [Fin.sum_univ_three]
  norm_num

lemma regularizedCov_srcEx :
    regularizedCov srcEx CORAL_REG_PARAM = Matrix.of ![![121/400]] := by
  apply Matrix.ext
  intro j k
  rw [Fin.eq_zero j, Fin.eq_zero k]
  unfold regularizedCov npCov
  simp only [Matrix.add_apply, Matrix.of_apply, Matrix.smul_apply, Matrix.one_apply_eq]
  simp only [show ∀ i : Fin 3, centerRows srcEx i 0 - colMean (centerRows srcEx) 0
      = srcEx i 0 - 9/20 from fun i => by
    rw [colMean_centerRows]
    unfold centerRows
    rw [Matrix.of_apply, colMean_srcEx]
    ring]
  rw [Fin.sum_univ_three]
  unfold srcEx CORAL_REG_PARAM
  norm_num

lemma regularizedCov_tgtEx :
    regularizedCov tgtEx CORAL_REG_PARAM = Matrix.of ![![49/400]] := by
  apply Matrix.ext
  intro j k
  rw [Fin.eq_zero j, Fin.eq_zero k]
  unfold regularizedCov npCov
  simp only [Matrix.add_apply, Matrix.of_apply, Matrix.smul_apply, Matrix.one_apply_eq]
  simp only [show ∀ i : Fin 3, centerRows tgtEx i 0 - colMean (centerRows tgtEx) 0
      = tgtEx i 0 - 3/20 from fun i => by
    rw [colMean_centerRows]
    unfold centerRows
    rw [Matrix.of_apply, colMean_tgtEx]
    ring]
  rw [Fin.sum_univ_three]
  unfold tgtEx CORAL_REG_PARAM
  norm_num

lemma sqrtm_srcEx :
    sqrtm (regularizedCov srcEx CORAL_REG_PARAM) = Matrix.of ![![11/20]] := by
  rw [regularizedCov_srcEx]
  exact sqrtm_one_one (11/20) (121/400) (by norm_num) (by norm_num)

lemma sqrtm_tgtEx :
    sqrtm (regularizedCov tgtEx CORAL_REG_PARAM) = Matrix.of ![![7/20]] := by
  rw [regularizedCov_tgtEx]
  exact sqrtm_one_one (7/20) (49/400) (by norm_num) (by norm_num)

lemma not_coralSingular_srcEx : ¬ coralSingular srcEx CORAL_REG_PARAM := by
  unfold coralSingular
  rw [sqrtm_srcEx, Matrix.det_fin_one]
  norm_num

lemma coral_transform_Ex_entry :
    coral_transform srcEx tgtEx CORAL_REG_PARAM 0 0 = -897/2420 := by
  have hinv : (Matrix.of ![![(11/20 : ℝ)]] : Matrix (Fin 1) (Fin 1) ℝ)⁻¹ =
      Matrix.of ![![(11/20 : ℝ)⁻¹]] := inv_one_one _ (by norm_num)
  unfold coral_transform
  rw [if_neg not_coralSingular_srcEx]
  rw [sqrtm_srcEx, sqrtm_tgtEx, hinv]
  simp only [Matrix.add_apply, Matrix.mul_apply, Fin.sum_univ_one, Matrix.of_apply, rowConst]
  unfold centerRows
  simp only [Matrix.of_apply]
  rw [colMean_srcEx, colMean_tgtEx]
  unfold srcEx
  norm_num

lemma coral_spec_transform_Ex_entry :
    coral_spec_transform srcEx tgtEx CORAL_REG_PARAM 0 0 = -3/22 := by
  have hinv : (Matrix.of ![![(11/20 : ℝ)]] : Matrix (Fin 1) (Fin 1) ℝ)⁻¹ =
      Matrix.of ![![(11/20 : ℝ)⁻¹]] := inv_one_one _ (by norm_num)
  unfold coral_spec_transform
  rw [sqrtm_srcEx, sqrtm_tgtEx, hinv]
  simp only [Matrix.add_apply, Matrix.mul_apply, Fin.sum_univ_one, Matrix.of_apply, rowConst]
  unfold centerRows
  simp only [Matrix.of_apply]
  rw [colMean_srcEx, colMean_tgtEx]
  unfold srcEx
  norm_num

/-- Claim C1 (counterexample). On a concrete non-failing input, the matrix
`coral_transform` returns differs from the spec's formula
`source_centered · (Csrc^(-1/2) · Ctgt^(1/2)) + target_mean`
(`coral_spec_transform`): the code multiplies by `Csrc^(-1/2)` a second
time. -/
theorem coral_transform_ne_spec_formula :
    ¬ coralSingular srcEx CORAL_REG_PARAM ∧
    coral_transform srcEx tgtEx CORAL_REG_PARAM ≠
      coral_spec_transform srcEx tgtEx CORAL_REG_PARAM := by
  refine ⟨not_coralSingular_srcEx, fun hEq => ?_⟩
  have h00 := congrFun (congrFun hEq 0) 0
  rw [coral_transform_Ex_entry, coral_spec_transform_Ex_entry] at h00
  norm_num at h00

/-- Claim C1 (amended). Whenever `coral_transform` does not take its failure
branch, the returned matrix is
`source_centered · T + target_mean` with
`T = Csrc^(-1/2) · Ctgt^(1/2) · Csrc^(-1/2)` (real part of the principal
square roots, covariances regularized by `0.1·I`). -/
theorem coral_transform_formula {n m d : ℕ} (src : Matrix (Fin n) (Fin d) ℝ)
    (tgt : Matrix (Fin m) (Fin d) ℝ)
    (h : ¬ coralSingular src CORAL_REG_PARAM) :
    coral_transform src tgt CORAL_REG_PARAM =
      centerRows src *
        ((sqrtm (regularizedCov src CORAL_REG_PARAM))⁻¹ *
          sqrtm (regularizedCov tgt CORAL_REG_PARAM) *
          (sqrtm (regularizedCov src CORAL_REG_PARAM))⁻¹) +
        rowConst (colMean tgt) := by
  unfold coral_transform
  rw [if_neg h]

/-- Witness for the amended C1 at the concrete example pair. -/
theorem coral_transform_formula_witness :
    coral_transform srcEx tgtEx CORAL_REG_PARAM =
      centerRows srcEx *
        ((sqrtm (regularizedCov srcEx CORAL_REG_PARAM))⁻¹ *
          sqrtm (regularizedCov tgtEx CORAL_REG_PARAM) *
          (sqrtm (regularizedCov srcEx CORAL_REG_PARAM))⁻¹) +
        rowConst (colMean tgtEx) :=
  coral_transform_formula srcEx tgtEx not_coralSingular_srcEx

/-- Claim C10. Whenever `coral_transform` does not fail (and the source has at
least one row), the per-feature mean of its output equals the target mean
exactly, so the post-alignment gap is exactly 0 — strictly below any
nonzero pre-alignment gap. -/
theorem coral_transform_matches_target_mean {n m d : ℕ}
    (src : Matrix (Fin n) (Fin d) ℝ) (tgt : Matrix (Fin m) (Fin d) ℝ) (reg : ℝ)
    (hn : 0 < n) (h : ¬ coralSingular src reg) :
    (∀ j, colMean (coral_transform src tgt reg) j = colMean tgt j) ∧
    calculate_domain_discrepancy (coral_transform src tgt reg) tgt = 0 ∧
    (0 < calculate_domain_discrepancy src tgt →
      calculate_domain_discrepancy (coral_transform src tgt reg) tgt <
        calculate_domain_discrepancy src tgt) := by
  have hmean : ∀ j, colMean (coral_transform src tgt reg) j = colMean tgt j := by
    intro j
    unfold coral_transform
    rw [if_neg h]
    dsimp only
    rw [colMean_add, colMean_matMul, colMean_rowConst hn]
    simp [colMean_centerRows]
  have hzero := discrepancy_eq_zero_of_colMean_eq _ _ hmean
  exact ⟨hmean, hzero, fun hpos => by rw [hzero]; exact hpos⟩

/-- Witness for C10 at the concrete example pair (whose pre-alignment gap
is `3/10 > 0`). -/
theorem coral_transform_matches_target_mean_witness :
    colMean (coral_transform srcEx tgtEx CORAL_REG_PARAM) 0 = colMean tgtEx 0 ∧
    calculate_domain_discrepancy (coral_transform srcEx tgtEx CORAL_REG_PARAM) tgtEx = 0 ∧
    calculate_domain_discrepancy (coral_transform srcEx tgtEx CORAL_REG_PARAM) tgtEx <
      calculate_domain_discrepancy srcEx tgtEx := by
  have hgap : calculate_domain_discrepancy srcEx tgtEx = 3/10 := by
    unfold calculate_domain_discrepancy
    rw [Fin.sum_univ_one, colMean_srcEx, colMean_tgtEx]
    rw [show ((9 : ℝ)/20 - 3/20) ^ 2 = (3/10) ^ 2 by norm_num]
    exact Real.sqrt_sq (by norm_num)
  have h := coral_transform_matches_target_mean srcEx tgtEx CORAL_REG_PARAM
    (by norm_num) not_coralSingular_srcEx
  exact ⟨h.1 0, h.2.1, h.2.2 (by rw [hgap]; norm_num)⟩

end NeuroFeel
